import Mathlib

/-!
Shallow embedding of the cover-page layout core of `JVSPB6.py`
(Jomar Submittal Builder): the text-fit calculator `fit_multiline_text`,
the vertical block centering routine `draw_centered_stack`, the logo
placement helper, the date formatter `format_mdY`, and the pure string
assembly performed by `make_cover_pdf` (title lines and bottom metadata
lines).  Numeric quantities (points, page units) are modelled as
rationals; the external font metric `pdfmetrics.stringWidth(txt, font, 1.0)`
is modelled as an abstract function `String → ℚ`.
-/

namespace JVSPB6

/-- Model of a Python `datetime.date` value: the renderer only reads the
`year`, `month` and `day` attributes. -/
structure PDate where
  year : Nat
  month : Nat
  day : Nat
deriving DecidableEq

/-- Model of Python `str.upper()` on the ASCII strings the renderer
produces: uppercase each character. -/
def pyUpper (s : String) : String :=
  ⟨s.data.map Char.toUpper⟩

/-- Model of Python `s or dflt` for a string `s`: the empty string is
falsy, any other string is truthy. -/
def pyOrStr (s dflt : String) : String :=
  if s = "" then dflt else s

/-- Model of Python `x or dflt` where `x` is an optional string (`None`
and the empty string are both falsy). -/
def pyOrOpt (s : Option String) (dflt : String) : String :=
  match s with
  | none => dflt
  | some t => if t = "" then dflt else t

/-- Embedding of `format_mdY(d, blank)`: `M/D/YYYY` without leading
zeros (Python `f-string` rendering of the integer fields), or the given
blank text when the date is absent (`None` is the only falsy date). -/
def format_mdY (d : Option PDate) (blank : String) : String :=
  match d with
  | none => blank
  | some d => Nat.repr d.month ++ "/" ++ Nat.repr d.day ++ "/" ++ Nat.repr d.year

/-- The Python function's default argument `blank="To Be Confirmed"`. -/
def format_mdY_default (d : Option PDate) : String :=
  format_mdY d "To Be Confirmed"

/-- Per-line width caps collected by the loop in `fit_multiline_text`:
empty lines are skipped, and a line contributes `safe_w / unit_w` when
its unit width is positive.  The letter-spacing `extra` term is computed
by the source but never used. -/
def caps_of (font : String → ℚ) (letter_spacing safe_w : ℚ) (lines : List String) : List ℚ :=
  lines.filterMap fun txt =>
    if txt = "" then none
    else
      let base_w_at_1pt := font txt
      let _extra := letter_spacing * max ((txt.length : ℚ) - 1) 0
      let unit_w := base_w_at_1pt
      if 0 < unit_w then some (safe_w / unit_w) else none

/-- Python `min(l)` on a non-empty list (left fold of binary `min` over
the tail), with a default value for the empty list (the source only uses
the default through `width_cap = min(caps) if caps else max_pt`). -/
def python_min (l : List ℚ) (dflt : ℚ) : ℚ :=
  match l with
  | [] => dflt
  | c :: cs => cs.foldl min c

/-- The single font size computed by `fit_multiline_text`:
`max(min(width_cap, height_cap, max_pt), min_pt)` where the width cap is
the minimum of the per-line caps (defaulting to `max_pt` when there are
none) and the height cap is `safe_h / ((n-1)·leading_factor)` for more
than one line (otherwise `max_pt`). -/
def fit_size (lines : List String) (font : String → ℚ)
    (bar_width bar_height side_pad v_pad max_pt min_pt leading_factor letter_spacing : ℚ) : ℚ :=
  let safe_w := max (bar_width - 2 * side_pad) 1
  let safe_h := max (bar_height - 2 * v_pad) 1
  let caps := caps_of font letter_spacing safe_w lines
  let width_cap := python_min caps max_pt
  let n := lines.length
  let height_cap := if 1 < n then safe_h / (((n : ℚ) - 1) * leading_factor) else max_pt
  max (min (min width_cap height_cap) max_pt) min_pt

/-- Embedding of `fit_multiline_text`: returns one copy of the computed
size per input line, together with `leading = size · leading_factor`. -/
def fit_multiline_text (lines : List String) (font : String → ℚ)
    (bar_width bar_height side_pad v_pad max_pt min_pt leading_factor letter_spacing : ℚ) :
    List ℚ × ℚ :=
  let size := fit_size lines font bar_width bar_height side_pad v_pad
    max_pt min_pt leading_factor letter_spacing
  (List.replicate lines.length size, size * leading_factor)

/-- Geometry computed by `draw_logo_centered_between_page_top_and_bar_top`
for a logo of intrinsic size `iw × ih`: position `(x, y)` and drawn size
`(w, h)` passed to `drawImage`. -/
structure LogoLayout where
  x : ℚ
  y : ℚ
  w : ℚ
  h : ℚ
deriving DecidableEq

/-- Embedding of `draw_logo_centered_between_page_top_and_bar_top`:
scale `min(max_width/iw, 1)`, horizontally centered, vertically centered
between the page top and the bar top, with the vertical position clamped
to `page_height - h - 24`. -/
def draw_logo_centered_between_page_top_and_bar_top
    (iw ih max_width page_width page_height bar_top_y : ℚ) : LogoLayout :=
  let scale := min (max_width / iw) 1
  let w := iw * scale
  let h := ih * scale
  let x := (page_width - w) / 2
  let desired_center_y := (page_height + bar_top_y) / 2
  let y0 := desired_center_y - h / 2
  let y := min y0 (page_height - h - 24)
  ⟨x, y, w, h⟩

/-- Embedding of the layout computed by `draw_centered_stack`: for each
drawn line the text, its point size and its baseline y-coordinate.
`asc1000` and `des1000` are the raw ReportLab font metrics
(`getAscent`/`getDescent`, 1000-em units); the source divides them by
1000 and takes the absolute value of the descent.  Lines are paired with
sizes by `zip` and baselines descend by `leading` from the first
baseline `y_center + block_h/2 - asc0 + optical_adjust`. -/
def draw_centered_stack (asc1000 des1000 : ℚ) (y_center : ℚ)
    (lines : List String) (sizes : List ℚ) (leading optical_adjust : ℚ) :
    List (String × ℚ × ℚ) :=
  if lines = [] then []
  else
    let asc_u := asc1000 / 1000
    let des_u := |des1000 / 1000|
    let asc0 := asc_u * sizes.headI
    let des_last := des_u * sizes.getLastD 0
    let interline := leading * ((lines.length : ℚ) - 1)
    let block_h := asc0 + interline + des_last
    let first_baseline_y := y_center + block_h / 2 - asc0 + optical_adjust
    ((lines.zip sizes).enum).map fun p => (p.2.1, p.2.2, first_baseline_y - (p.1 : ℚ) * leading)

/-- The three title lines assembled by `make_cover_pdf`: uppercased
project name and location (placeholder when empty) and the literal
third line. -/
def title_lines (project_name project_location : String) : List String :=
  [pyUpper (pyOrStr project_name "TO BE CONFIRMED"),
   pyUpper (pyOrStr project_location "TO BE CONFIRMED"),
   "SUBMITTAL PACKAGE"]

/-- The first bottom-block line of `make_cover_pdf`:
`f"{role_label}: {company_txt}"` with the defaults of the source. -/
def first_line (party_label : Option String) (party_name : String) : String :=
  let role_label := pyUpper (pyOrOpt party_label "Recipient")
  let company_txt := pyUpper (pyOrStr party_name "To Be Confirmed")
  role_label ++ ": " ++ company_txt

/-- The second bottom-block line of `make_cover_pdf`. -/
def date_prepared_line (date_prepared : Option PDate) : String :=
  "DATE PREPARED: " ++ pyUpper (format_mdY date_prepared "To Be Confirmed")

/-- The bottom metadata block assembled by `make_cover_pdf`
(lines 304-317 of the source): role+party line, date-prepared line, and
the conditional bid-date line. -/
def lines_bottom (party_label : Option String) (party_name : String)
    (date_prepared bid_date : Option PDate) (bid_date_tbc bid_date_na : Bool) :
    List String :=
  let base := [first_line party_label party_name, date_prepared_line date_prepared]
  if ¬ bid_date_na then
    if bid_date_tbc || bid_date.isNone then
      base ++ ["BID DATE: TO BE CONFIRMED"]
    else
      base ++ ["BID DATE: " ++ pyUpper (format_mdY_default bid_date)]
  else
    base

/-- Concrete three-line title block used as a test fixture. -/
def demo_lines : List String := ["ACME TOWER", "CHICAGO, IL", "SUBMITTAL PACKAGE"]

/-- Concrete font-metric fixture: half a point of width per character at
size 1. -/
def demo_font : String → ℚ := fun t => (t.length : ℚ) / 2

theorem foldl_min_le_init (l : List ℚ) (a : ℚ) : l.foldl min a ≤ a := by
  induction l generalizing a with
  | nil => exact le_rfl
  | cons x t ih => exact le_trans (ih (min a x)) (min_le_left a x)

theorem foldl_min_le_mem (l : List ℚ) (a : ℚ) {x : ℚ} (hx : x ∈ l) : l.foldl min a ≤ x := by
  induction l generalizing a with
  | nil => cases hx
  | cons y t ih =>
    rcases List.mem_cons.mp hx with h | h
    · subst h
      exact le_trans (foldl_min_le_init t (min a x)) (min_le_right a x)
    · exact ih (min a y) h

theorem python_min_le_mem (l : List ℚ) (d : ℚ) {x : ℚ} (hx : x ∈ l) :
    python_min l d ≤ x := by
  cases l with
  | nil => cases hx
  | cons c cs =>
    rcases List.mem_cons.mp hx with h | h
    · subst h
      exact foldl_min_le_init cs x
    · exact foldl_min_le_mem cs c h

theorem foldl_min_mem (cs : List ℚ) (c : ℚ) : cs.foldl min c ∈ c :: cs := by
  induction cs generalizing c with
  | nil => exact List.mem_singleton.mpr rfl
  | cons x t ih =>
    have h := ih (min c x)
    rcases List.mem_cons.mp h with h1 | h1
    · rcases min_choice c x with hm | hm
      · rw [show (x :: t).foldl min c = t.foldl min (min c x) from rfl, h1, hm]
        exact List.mem_cons_self _ _
      · rw [show (x :: t).foldl min c = t.foldl min (min c x) from rfl, h1, hm]
        exact List.mem_cons.mpr (Or.inr (List.mem_cons_self _ _))
    · exact List.mem_cons.mpr (Or.inr (List.mem_cons.mpr (Or.inr h1)))

theorem python_min_mem (l : List ℚ) (d : ℚ) (hl : l ≠ []) : python_min l d ∈ l := by
  cases l with
  | nil => exact absurd rfl hl
  | cons c cs => exact foldl_min_mem cs c

theorem python_min_sublist_le (l l' : List ℚ) (d : ℚ) (hsub : l.Sublist l') (hl : l ≠ []) :
    python_min l' d ≤ python_min l d :=
  python_min_le_mem l' d (hsub.subset (python_min_mem l d hl))

theorem toUpper_digitChar (k : Nat) (hk : k < 10) :
    Char.toUpper (Nat.digitChar k) = Nat.digitChar k := by
  interval_cases k <;> decide

theorem toUpper_eq_self_of_mem_toDigitsCore (f : Nat) :
    ∀ (n : Nat) (ds : List Char), (∀ c ∈ ds, Char.toUpper c = c) →
      ∀ c ∈ Nat.toDigitsCore 10 f n ds, Char.toUpper c = c := by
  induction f with
  | zero =>
    intro n ds hds c hc
    exact hds c hc
  | succ f ih =>
    intro n ds hds c hc
    simp only [Nat.toDigitsCore] at hc
    by_cases h : n / 10 = 0
    · rw [if_pos h] at hc
      rcases List.mem_cons.mp hc with h1 | h1
      · subst h1
        exact toUpper_digitChar _ (Nat.mod_lt _ (by norm_num))
      · exact hds c h1
    · rw [if_neg h] at hc
      refine ih (n / 10) (Nat.digitChar (n % 10) :: ds) ?_ c hc
      intro c' hc'
      rcases List.mem_cons.mp hc' with h1 | h1
      · subst h1
        exact toUpper_digitChar _ (Nat.mod_lt _ (by norm_num))
      · exact hds c' h1

theorem pyUpper_repr (n : Nat) : pyUpper (Nat.repr n) = Nat.repr n := by
  have h : ∀ c ∈ Nat.toDigits 10 n, Char.toUpper c = c :=
    toUpper_eq_self_of_mem_toDigitsCore (n + 1) n [] (by intro c hc; cases hc)
  show String.mk ((Nat.repr n).data.map Char.toUpper) = Nat.repr n
  have hdata : (Nat.repr n).data = Nat.toDigits 10 n := rfl
  rw [hdata]
  have hmap : (Nat.toDigits 10 n).map Char.toUpper = Nat.toDigits 10 n :=
    (List.map_congr_left fun c hc => h c hc).trans (List.map_id _)
  rw [hmap]
  rfl

theorem pyUpper_append (a b : String) : pyUpper (a ++ b) = pyUpper a ++ pyUpper b := by
  show String.mk ((a ++ b).data.map Char.toUpper) =
    String.mk (a.data.map Char.toUpper ++ b.data.map Char.toUpper)
  rw [show (a ++ b).data = a.data ++ b.data from rfl, List.map_append]

theorem pyUpper_format_mdY (d : PDate) :
    pyUpper (format_mdY_default (some d)) =
      Nat.repr d.month ++ "/" ++ Nat.repr d.day ++ "/" ++ Nat.repr d.year := by
  show pyUpper (Nat.repr d.month ++ "/" ++ Nat.repr d.day ++ "/" ++ Nat.repr d.year) = _
  rw [pyUpper_append, pyUpper_append, pyUpper_append, pyUpper_append,
    pyUpper_repr, pyUpper_repr, pyUpper_repr, show pyUpper "/" = "/" from by decide]

/-- C7: `format_mdY` renders a present date as month/day/year in plain
decimal with no leading zeros on month and day (checked on every
calendar month and day value), and returns the blank text on an absent
date, the default blank being `To Be Confirmed`. -/
theorem format_mdY_spec :
    (∀ blank, format_mdY none blank = blank) ∧
    (∀ d blank, format_mdY (some d) blank =
      Nat.repr d.month ++ "/" ++ Nat.repr d.day ++ "/" ++ Nat.repr d.year) ∧
    format_mdY_default (some ⟨2024, 3, 5⟩) = "3/5/2024" ∧
    format_mdY_default none = "To Be Confirmed" ∧
    (∀ m ∈ List.range 13, ∀ d ∈ List.range 32, 1 ≤ m → 1 ≤ d →
      (Nat.repr m).data.head? ≠ some '0' ∧ (Nat.repr d).data.head? ≠ some '0') :=
  ⟨fun _ => rfl, fun _ _ => rfl, rfl, rfl, by decide⟩

/-- Witness for C7 discharging the bounded-range hypotheses at the
scenario date 2024-03-05. -/
theorem format_mdY_spec_witness :
    format_mdY none "Pending" = "Pending" ∧
    (Nat.repr 3).data.head? ≠ some '0' ∧ (Nat.repr 5).data.head? ≠ some '0' :=
  ⟨format_mdY_spec.1 "Pending",
    (format_mdY_spec.2.2.2.2 3 (by decide) 5 (by decide) (by decide) (by decide)).1,
    (format_mdY_spec.2.2.2.2 3 (by decide) 5 (by decide) (by decide) (by decide)).2⟩

/-- C3: the bottom metadata block carries a bid-date line exactly when
the not-applicable flag is unset; the line reads `TO BE CONFIRMED` when
the to-be-confirmed flag is set or no date was supplied (the flag takes
precedence over a concrete date), and shows the formatted date
otherwise. -/
theorem lines_bottom_bid_date_cases
    (party_label : Option String) (party_name : String)
    (date_prepared bid_date : Option PDate) (tbc na : Bool) :
    (na = true →
      lines_bottom party_label party_name date_prepared bid_date tbc na =
        [first_line party_label party_name, date_prepared_line date_prepared]) ∧
    (na = false → (tbc = true ∨ bid_date = none) →
      lines_bottom party_label party_name date_prepared bid_date tbc na =
        [first_line party_label party_name, date_prepared_line date_prepared,
          "BID DATE: TO BE CONFIRMED"]) ∧
    (na = false → tbc = false → ∀ d, bid_date = some d →
      lines_bottom party_label party_name date_prepared bid_date tbc na =
        [first_line party_label party_name, date_prepared_line date_prepared,
          "BID DATE: " ++
            (Nat.repr d.month ++ "/" ++ Nat.repr d.day ++ "/" ++ Nat.repr d.year)]) := by
  refine ⟨?_, ?_, ?_⟩
  · intro h
    subst h
    simp [lines_bottom]
  · intro hna hor
    subst hna
    rcases hor with h | h
    · subst h
      simp [lines_bottom]
    · subst h
      simp [lines_bottom]
  · intro hna htbc d hd
    subst hna
    subst htbc
    subst hd
    simp [lines_bottom, pyUpper_format_mdY]

/-- Witness for C3: to-be-confirmed flag set together with a concrete
bid date. -/
theorem lines_bottom_bid_date_cases_witness :
    (false = true →
      lines_bottom (some "Contractor") "ACME" (some ⟨2024, 3, 5⟩) (some ⟨2024, 4, 1⟩)
          true false =
        [first_line (some "Contractor") "ACME", date_prepared_line (some ⟨2024, 3, 5⟩)]) ∧
    (false = false → (true = true ∨ (some (⟨2024, 4, 1⟩ : PDate)) = none) →
      lines_bottom (some "Contractor") "ACME" (some ⟨2024, 3, 5⟩) (some ⟨2024, 4, 1⟩)
          true false =
        [first_line (some "Contractor") "ACME", date_prepared_line (some ⟨2024, 3, 5⟩),
          "BID DATE: TO BE CONFIRMED"]) ∧
    (false = false → true = false → ∀ d, (some (⟨2024, 4, 1⟩ : PDate)) = some d →
      lines_bottom (some "Contractor") "ACME" (some ⟨2024, 3, 5⟩) (some ⟨2024, 4, 1⟩)
          true false =
        [first_line (some "Contractor") "ACME", date_prepared_line (some ⟨2024, 3, 5⟩),
          "BID DATE: " ++
            (Nat.repr d.month ++ "/" ++ Nat.repr d.day ++ "/" ++ Nat.repr d.year)]) :=
  lines_bottom_bid_date_cases (some "Contractor") "ACME" (some ⟨2024, 3, 5⟩)
    (some ⟨2024, 4, 1⟩) true false

/-- C4: with empty project fields, no role, blank party name and absent
dates, the title block is the placeholder stack and the bottom block is
the three fully-placeholder lines. -/
theorem cover_scenario_all_blank :
    title_lines "" "" = ["TO BE CONFIRMED", "TO BE CONFIRMED", "SUBMITTAL PACKAGE"] ∧
    lines_bottom none "" none none false false =
      ["RECIPIENT: TO BE CONFIRMED", "DATE PREPARED: TO BE CONFIRMED",
        "BID DATE: TO BE CONFIRMED"] := by
  constructor
  · decide
  · decide

/-- C1: for every call to `fit_multiline_text` with `min_pt ≤ max_pt`,
the returned sizes sequence has exactly one entry per input line, all
entries equal a single size `s` with `min_pt ≤ s ≤ max_pt`, and the
returned leading equals `s * leading_factor`. -/
theorem fit_multiline_text_uniform_bounded
    (lines : List String) (font : String → ℚ)
    (bw bh sp vp max_pt min_pt lf ls : ℚ) (hmm : min_pt ≤ max_pt) :
    ∃ s : ℚ,
      (fit_multiline_text lines font bw bh sp vp max_pt min_pt lf ls).1 =
        List.replicate lines.length s ∧
      (fit_multiline_text lines font bw bh sp vp max_pt min_pt lf ls).1.length =
        lines.length ∧
      min_pt ≤ s ∧ s ≤ max_pt ∧
      (fit_multiline_text lines font bw bh sp vp max_pt min_pt lf ls).2 = s * lf := by
  refine ⟨fit_size lines font bw bh sp vp max_pt min_pt lf ls, rfl, ?_, ?_, ?_, rfl⟩
  · simp [fit_multiline_text]
  · simp only [fit_size]
    exact le_max_right _ _
  · simp only [fit_size]
    exact max_le (min_le_right _ _) hmm

/-- Witness for C1 at the concrete fixture inputs. -/
theorem fit_multiline_text_uniform_bounded_witness :
    ∃ s : ℚ,
      (fit_multiline_text demo_lines demo_font 612 140 48 18 36 14 (28/25) 0).1 =
        List.replicate demo_lines.length s ∧
      (fit_multiline_text demo_lines demo_font 612 140 48 18 36 14 (28/25) 0).1.length =
        demo_lines.length ∧
      (14:ℚ) ≤ s ∧ s ≤ 36 ∧
      (fit_multiline_text demo_lines demo_font 612 140 48 18 36 14 (28/25) 0).2 = s * (28/25) :=
  fit_multiline_text_uniform_bounded demo_lines demo_font 612 140 48 18 36 14 (28/25) 0
    (by norm_num)

/-- C9: the usable drawing width and height are each floored at 1 unit,
and even on degenerate geometry (zero or negative box after padding) a
size within the bounds is still returned. -/
theorem fit_size_defensive_floors
    (lines : List String) (font : String → ℚ)
    (bw bh sp vp max_pt min_pt lf ls : ℚ) (hlf : 0 < lf) (hmm : min_pt ≤ max_pt) :
    (1:ℚ) ≤ max (bw - 2 * sp) 1 ∧ (1:ℚ) ≤ max (bh - 2 * vp) 1 ∧
    min_pt ≤ fit_size lines font bw bh sp vp max_pt min_pt lf ls ∧
    fit_size lines font bw bh sp vp max_pt min_pt lf ls ≤ max_pt := by
  refine ⟨le_max_right _ _, le_max_right _ _, ?_, ?_⟩
  · simp only [fit_size]
    exact le_max_right _ _
  · simp only [fit_size]
    exact max_le (min_le_right _ _) hmm

/-- Witness for C9 on degenerate geometry: a zero-width, negative-height
bar still yields a size in the bounds. -/
theorem fit_size_defensive_floors_witness :
    (1:ℚ) ≤ max ((0:ℚ) - 2 * 48) 1 ∧ (1:ℚ) ≤ max ((-100:ℚ) - 2 * 18) 1 ∧
    (14:ℚ) ≤ fit_size demo_lines demo_font 0 (-100) 48 18 36 14 (28/25) 0 ∧
    fit_size demo_lines demo_font 0 (-100) 48 18 36 14 (28/25) 0 ≤ 36 :=
  fit_size_defensive_floors demo_lines demo_font 0 (-100) 48 18 36 14 (28/25) 0
    (by norm_num) (by norm_num)

theorem fit_size_eq (lines : List String) (font : String → ℚ)
    (bw bh sp vp max_pt min_pt lf ls : ℚ) :
    fit_size lines font bw bh sp vp max_pt min_pt lf ls =
      max (min (min (python_min (caps_of font ls (max (bw - 2 * sp) 1) lines) max_pt)
        (if 1 < lines.length then
            (max (bh - 2 * vp) 1) / (((lines.length : ℚ) - 1) * lf)
          else max_pt)) max_pt) min_pt := rfl

theorem caps_of_mem (font : String → ℚ) (ls safe_w : ℚ) (lines : List String)
    {txt : String} (htxt : txt ∈ lines) (hne : txt ≠ "") (hpos : 0 < font txt) :
    safe_w / font txt ∈ caps_of font ls safe_w lines := by
  refine List.mem_filterMap.mpr ⟨txt, htxt, ?_⟩
  simp only [if_neg hne, if_pos hpos]

/-- C2: when the computed size is strictly greater than `min_pt` (the
minimum-size clamp was not applied), every non-empty line fits the safe
width (`unit width × size ≤ max(bar_width − 2·side_pad, 1)`) and the
interline stack `(N−1)·(size·leading_factor)` fits the safe height
`max(bar_height − 2·v_pad, 1)`; at `size = min_pt` overflow is allowed. -/
theorem fit_multiline_text_fits_unless_clamped
    (lines : List String) (font : String → ℚ)
    (bw bh sp vp max_pt min_pt lf ls : ℚ)
    (hfont : ∀ t, 0 ≤ font t) (hmm : min_pt ≤ max_pt) (hlf : 0 < lf)
    (hs : min_pt < fit_size lines font bw bh sp vp max_pt min_pt lf ls) :
    (∀ txt ∈ lines, txt ≠ "" →
      font txt * fit_size lines font bw bh sp vp max_pt min_pt lf ls ≤
        max (bw - 2 * sp) 1) ∧
    ((lines.length - 1 : ℕ) : ℚ) *
        (fit_size lines font bw bh sp vp max_pt min_pt lf ls * lf) ≤
      max (bh - 2 * vp) 1 := by
  have hsafe_w : (0:ℚ) ≤ max (bw - 2 * sp) 1 :=
    le_trans zero_le_one (le_max_right _ _)
  have hsafe_h : (0:ℚ) ≤ max (bh - 2 * vp) 1 :=
    le_trans zero_le_one (le_max_right _ _)
  have hX : fit_size lines font bw bh sp vp max_pt min_pt lf ls =
      min (min (python_min (caps_of font ls (max (bw - 2 * sp) 1) lines) max_pt)
        (if 1 < lines.length then
            (max (bh - 2 * vp) 1) / (((lines.length : ℚ) - 1) * lf)
          else max_pt)) max_pt := by
    rcases max_cases (min (min (python_min (caps_of font ls (max (bw - 2 * sp) 1) lines)
        max_pt)
        (if 1 < lines.length then
            (max (bh - 2 * vp) 1) / (((lines.length : ℚ) - 1) * lf)
          else max_pt)) max_pt) min_pt with ⟨h1, _⟩ | ⟨h1, _⟩
    · exact (fit_size_eq _ _ _ _ _ _ _ _ _ _).trans h1
    · exfalso
      rw [fit_size_eq] at hs
      rw [h1] at hs
      exact lt_irrefl _ hs
  constructor
  · intro txt htxt hne
    by_cases hpos : 0 < font txt
    · have hcap : max (bw - 2 * sp) 1 / font txt ∈
          caps_of font ls (max (bw - 2 * sp) 1) lines :=
        caps_of_mem font ls _ lines htxt hne hpos
      have hwc : fit_size lines font bw bh sp vp max_pt min_pt lf ls ≤
          max (bw - 2 * sp) 1 / font txt := by
        rw [hX]
        exact le_trans (le_trans (min_le_left _ _) (min_le_left _ _))
          (python_min_le_mem _ _ hcap)
      rw [mul_comm]
      exact (le_div_iff₀ hpos).mp hwc
    · have h0 : font txt = 0 := le_antisymm (not_lt.mp hpos) (hfont txt)
      rw [h0, zero_mul]
      exact hsafe_w
  · by_cases hn : 1 < lines.length
    · have hD : (0:ℚ) < ((lines.length : ℚ) - 1) * lf := by
        have h1n : (1:ℚ) < (lines.length : ℚ) := by exact_mod_cast hn
        have : (0:ℚ) < (lines.length : ℚ) - 1 := by linarith
        exact mul_pos this hlf
      have hhc : fit_size lines font bw bh sp vp max_pt min_pt lf ls ≤
          (max (bh - 2 * vp) 1) / (((lines.length : ℚ) - 1) * lf) := by
        rw [hX, if_pos hn]
        exact le_trans (min_le_left _ _) (min_le_right _ _)
      have hmul := (le_div_iff₀ hD).mp hhc
      have hcast : ((lines.length - 1 : ℕ) : ℚ) = (lines.length : ℚ) - 1 := by
        rw [Nat.cast_sub (Nat.one_le_of_lt hn), Nat.cast_one]
      rw [hcast]
      calc ((lines.length : ℚ) - 1) *
            (fit_size lines font bw bh sp vp max_pt min_pt lf ls * lf)
          = fit_size lines font bw bh sp vp max_pt min_pt lf ls *
            (((lines.length : ℚ) - 1) * lf) := by ring
        _ ≤ max (bh - 2 * vp) 1 := hmul
    · have hz : lines.length - 1 = 0 := Nat.sub_eq_zero_of_le (not_lt.mp hn)
      rw [hz, Nat.cast_zero, zero_mul]
      exact hsafe_h

/-- Witness for C2 at the concrete fixture inputs, where the computed
size is strictly above the minimum. -/
theorem fit_multiline_text_fits_unless_clamped_witness :
    (∀ txt ∈ demo_lines, txt ≠ "" →
      demo_font txt * fit_size demo_lines demo_font 612 140 48 18 36 14 (28/25) 0 ≤
        max ((612:ℚ) - 2 * 48) 1) ∧
    ((demo_lines.length - 1 : ℕ) : ℚ) *
        (fit_size demo_lines demo_font 612 140 48 18 36 14 (28/25) 0 * (28/25)) ≤
      max ((140:ℚ) - 2 * 18) 1 :=
  fit_multiline_text_fits_unless_clamped demo_lines demo_font 612 140 48 18 36 14 (28/25) 0
    (fun t => div_nonneg (Nat.cast_nonneg _) (by norm_num)) (by norm_num) (by norm_num)
    (by
      rw [fit_size_eq]
      simp +decide [caps_of, demo_lines, demo_font, python_min, List.filterMap_cons,
        show "ACME TOWER".length = 10 from rfl, show "CHICAGO, IL".length = 11 from rfl,
        show "SUBMITTAL PACKAGE".length = 17 from rfl]
      norm_num [min_def, max_def])

/-- C6: for a fixed font, box, padding, size bounds and positive leading
factor, adding lines (anywhere: the original list is a sublist of the
extended one) never increases the computed size. -/
theorem fit_size_antitone_in_lines
    (L L' : List String) (font : String → ℚ)
    (bw bh sp vp max_pt min_pt lf ls : ℚ) (hsub : L.Sublist L') (hlf : 0 < lf) :
    fit_size L' font bw bh sp vp max_pt min_pt lf ls ≤
      fit_size L font bw bh sp vp max_pt min_pt lf ls := by
  rw [fit_size_eq, fit_size_eq]
  apply max_le_max _ le_rfl
  refine le_min (le_min ?_ ?_) (min_le_right _ _)
  · by_cases hLc : caps_of font ls (max (bw - 2 * sp) 1) L = []
    · rw [hLc]
      exact min_le_right _ _
    · refine le_trans (le_trans (min_le_left _ _) (min_le_left _ _)) ?_
      have hcs : (caps_of font ls (max (bw - 2 * sp) 1) L).Sublist
          (caps_of font ls (max (bw - 2 * sp) 1) L') := by
        simp only [caps_of]
        exact hsub.filterMap _
      exact python_min_sublist_le _ _ _ hcs hLc
  · by_cases hn : 1 < L.length
    · have hn' : 1 < L'.length := lt_of_lt_of_le hn hsub.length_le
      rw [if_pos hn, if_pos hn']
      refine le_trans (le_trans (min_le_left _ _) (min_le_right _ _)) ?_
      have h1L : (0:ℚ) < ((L.length : ℚ) - 1) * lf := by
        have : (1:ℚ) < (L.length : ℚ) := by exact_mod_cast hn
        have h0 : (0:ℚ) < (L.length : ℚ) - 1 := by linarith
        exact mul_pos h0 hlf
      refine div_le_div_of_nonneg_left (le_trans zero_le_one (le_max_right _ _)) h1L ?_
      have hle : (L.length : ℚ) ≤ (L'.length : ℚ) := by exact_mod_cast hsub.length_le
      have : ((L.length : ℚ) - 1) ≤ ((L'.length : ℚ) - 1) := by linarith
      exact mul_le_mul_of_nonneg_right this (le_of_lt hlf)
    · rw [if_neg hn]
      exact min_le_right _ _

/-- Witness for C6: appending one line to the fixture block does not
increase the size. -/
theorem fit_size_antitone_in_lines_witness :
    fit_size (demo_lines ++ ["A MUCH LONGER EXTRA LINE OF TITLE TEXT"])
        demo_font 612 140 48 18 36 14 (28/25) 0 ≤
      fit_size demo_lines demo_font 612 140 48 18 36 14 (28/25) 0 :=
  fit_size_antitone_in_lines demo_lines
    (demo_lines ++ ["A MUCH LONGER EXTRA LINE OF TITLE TEXT"])
    demo_font 612 140 48 18 36 14 (28/25) 0 (List.sublist_append_left _ _) (by norm_num)

/-- C10: the `letter_spacing` argument has no effect on the result of
`fit_multiline_text` — the per-line `extra` term is computed but never
used, so any value gives the same sizes and leading as `0`. -/
theorem fit_multiline_text_letter_spacing_irrelevant
    (lines : List String) (font : String → ℚ)
    (bw bh sp vp max_pt min_pt lf ls : ℚ) :
    fit_multiline_text lines font bw bh sp vp max_pt min_pt lf ls =
      fit_multiline_text lines font bw bh sp vp max_pt min_pt lf 0 := rfl

/-- C5: for a non-empty stack, `draw_centered_stack` draws one item per
line; item `i` carries line `i` at size `i` with its baseline at
`y_center + block_h/2 − asc0 + optical_adjust − i·leading` where
`block_h = asc0 + (N−1)·leading + des_last` uses the normalized font
metrics scaled by the first and last sizes; consecutive baselines are
exactly `leading` apart. -/
theorem draw_centered_stack_layout
    (asc1000 des1000 y_center : ℚ) (lines : List String) (sizes : List ℚ)
    (leading optical_adjust : ℚ)
    (hne : lines ≠ []) (hlen : lines.length = sizes.length) :
    (draw_centered_stack asc1000 des1000 y_center lines sizes leading
        optical_adjust).length = lines.length ∧
    (∀ i, i < lines.length →
      (draw_centered_stack asc1000 des1000 y_center lines sizes leading
          optical_adjust).getD i ("", 0, 0) =
        (lines.getD i "", sizes.getD i 0,
          y_center +
              (asc1000 / 1000 * sizes.headI + leading * ((lines.length : ℚ) - 1) +
                |des1000 / 1000| * sizes.getLastD 0) / 2 -
            asc1000 / 1000 * sizes.headI + optical_adjust - (i : ℚ) * leading)) ∧
    (∀ i, i + 1 < lines.length →
      ((draw_centered_stack asc1000 des1000 y_center lines sizes leading
          optical_adjust).getD (i + 1) ("", 0, 0)).2.2 =
        ((draw_centered_stack asc1000 des1000 y_center lines sizes leading
          optical_adjust).getD i ("", 0, 0)).2.2 - leading) := by
  have hzl : (lines.zip sizes).length = lines.length := by
    rw [List.length_zip, ← hlen, Nat.min_self]
  have hol : (draw_centered_stack asc1000 des1000 y_center lines sizes leading
      optical_adjust).length = lines.length := by
    simp only [draw_centered_stack, if_neg hne]
    simp [hzl]
  have key : ∀ i, i < lines.length →
      (draw_centered_stack asc1000 des1000 y_center lines sizes leading
          optical_adjust).getD i ("", 0, 0) =
        (lines.getD i "", sizes.getD i 0,
          y_center +
              (asc1000 / 1000 * sizes.headI + leading * ((lines.length : ℚ) - 1) +
                |des1000 / 1000| * sizes.getLastD 0) / 2 -
            asc1000 / 1000 * sizes.headI + optical_adjust - (i : ℚ) * leading) := by
    intro i hi
    have his : i < sizes.length := hlen ▸ hi
    rw [List.getD_eq_getElem _ _ (hol ▸ hi), List.getD_eq_getElem _ _ hi,
      List.getD_eq_getElem _ _ his]
    simp only [draw_centered_stack, if_neg hne]
    simp [List.getElem_map, List.getElem_enum, List.getElem_zip, hzl]
  refine ⟨hol, key, ?_⟩
  intro i hi
  rw [key (i + 1) hi, key i (Nat.lt_of_succ_lt hi)]
  push_cast
  ring

/-- Witness for C5 on a concrete two-line stack with Helvetica metrics. -/
theorem draw_centered_stack_layout_witness :
    (draw_centered_stack 718 (-207) 140 ["RECIPIENT: X", "DATE PREPARED: Y"] [12, 12] 18
        0).length = (["RECIPIENT: X", "DATE PREPARED: Y"] : List String).length ∧
    (∀ i, i < (["RECIPIENT: X", "DATE PREPARED: Y"] : List String).length →
      (draw_centered_stack 718 (-207) 140 ["RECIPIENT: X", "DATE PREPARED: Y"] [12, 12] 18
          0).getD i ("", 0, 0) =
        ((["RECIPIENT: X", "DATE PREPARED: Y"] : List String).getD i "",
          ([12, 12] : List ℚ).getD i 0,
          140 +
              ((718:ℚ) / 1000 * ([12, 12] : List ℚ).headI +
                18 * (((["RECIPIENT: X", "DATE PREPARED: Y"] : List String).length : ℚ) - 1) +
                |(-207:ℚ) / 1000| * ([12, 12] : List ℚ).getLastD 0) / 2 -
            (718:ℚ) / 1000 * ([12, 12] : List ℚ).headI + 0 - (i : ℚ) * 18)) ∧
    (∀ i, i + 1 < (["RECIPIENT: X", "DATE PREPARED: Y"] : List String).length →
      ((draw_centered_stack 718 (-207) 140 ["RECIPIENT: X", "DATE PREPARED: Y"] [12, 12] 18
          0).getD (i + 1) ("", 0, 0)).2.2 =
        ((draw_centered_stack 718 (-207) 140 ["RECIPIENT: X", "DATE PREPARED: Y"] [12, 12] 18
          0).getD i ("", 0, 0)).2.2 - 18) :=
  draw_centered_stack_layout 718 (-207) 140 ["RECIPIENT: X", "DATE PREPARED: Y"] [12, 12] 18 0
    (by decide) (by decide)

/-- C8: the logo is scaled by `min(max_width/iw, 1)` — so the drawn
width never exceeds `max_width` nor the native width, and aspect ratio
is preserved — horizontally centered, vertically centered between the
page top and the bar top whenever the clamp is inactive, and clamped so
the drawn top edge stays below the page top. -/
theorem draw_logo_spec
    (iw ih max_width page_width page_height bar_top_y : ℚ) (hiw : 0 < iw) :
    ∃ x y w h : ℚ,
      draw_logo_centered_between_page_top_and_bar_top iw ih max_width page_width
          page_height bar_top_y = ⟨x, y, w, h⟩ ∧
      w ≤ max_width ∧ w ≤ iw ∧ w * ih = h * iw ∧
      x + w / 2 = page_width / 2 ∧
      y + h ≤ page_height ∧
      ((page_height + bar_top_y) / 2 - h / 2 ≤ page_height - h - 24 →
        y + h / 2 = (page_height + bar_top_y) / 2) := by
  refine ⟨_, _, _, _, rfl, ?_, ?_, ?_, ?_, ?_, ?_⟩
  · rcases min_cases (max_width / iw) 1 with ⟨h1, _⟩ | ⟨h1, h2⟩
    · rw [h1, mul_comm, div_mul_cancel₀ _ (ne_of_gt hiw)]
    · rw [h1, mul_one]
      exact (one_le_div hiw).mp (le_of_lt h2)
  · exact mul_le_of_le_one_right (le_of_lt hiw) (min_le_right _ _)
  · ring
  · ring
  · have hy : min ((page_height + bar_top_y) / 2 - ih * min (max_width / iw) 1 / 2)
        (page_height - ih * min (max_width / iw) 1 - 24) ≤
          page_height - ih * min (max_width / iw) 1 - 24 := min_le_right _ _
    linarith
  · intro hcl
    rw [min_eq_left hcl]
    ring

/-- Witness for C8 on a concrete 600×300 logo limited to width 300. -/
theorem draw_logo_spec_witness :
    ∃ x y w h : ℚ,
      draw_logo_centered_between_page_top_and_bar_top 600 300 300 612 792 441 =
        ⟨x, y, w, h⟩ ∧
      w ≤ 300 ∧ w ≤ 600 ∧ w * 300 = h * 600 ∧
      x + w / 2 = 612 / 2 ∧
      y + h ≤ 792 ∧
      (((792:ℚ) + 441) / 2 - h / 2 ≤ 792 - h - 24 → y + h / 2 = ((792:ℚ) + 441) / 2) :=
  draw_logo_spec 600 300 300 612 792 441 (by norm_num)

end JVSPB6
